import Mathlib

/-!
Verification development for the RAG chat backend (rag/rag.js, backend/db.js,
backend/config.js and the streaming variant of backend/server.js).

The JavaScript sources are shallowly embedded as pure Lean functions:
  - external effects (file system reads, PDF extraction, embedding calls,
    completion calls) are passed in as explicit oracle arguments;
  - the SQLite content store is modelled as an explicit `Db` value threaded
    through the database accessor functions of backend/db.js;
  - JS numbers used as scores / timestamps are modelled as rationals,
    character counts and token counts as naturals;
  - `Math.sqrt` is abstracted as a function argument `sq` constrained exactly
    by the properties used (`sq 0 = 0`, `sq x ≠ 0` for `x > 0`).
-/

/-! ### Configuration constants (backend/config.js, backend/server.js) -/

/-- config.js: retrieval.chunkSize. -/
def CONFIG_retrieval_chunkSize : Nat := 800

/-- config.js: retrieval.chunkOverlap. -/
def CONFIG_retrieval_chunkOverlap : Nat := 100

/-- config.js: retrieval.topK. -/
def CONFIG_retrieval_topK : Nat := 2

/-- config.js: `CONFIG.retrieval` declares no `minScore` member, so the read
`CONFIG.retrieval.minScore` in rag.js evaluates to the JS value `undefined`,
modelled here as `none`. -/
def CONFIG_retrieval_minScore : Option ℚ := none

/-- config.js: minCompletionTokens. -/
def CONFIG_minCompletionTokens : Nat := 1024

/-- config.js: DEFAULT_OUTPUT_TOKENS. -/
def DEFAULT_OUTPUT_TOKENS : Nat := 4096

/-- config.js: `outputTokenCap = Math.max(DEFAULT_OUTPUT_TOKENS, configuredOutputTokens)`,
with `configuredOutputTokens` read from the MAX_OUTPUT_TOKENS environment variable. -/
def CONFIG_outputTokenCap (configuredOutputTokens : Nat) : Nat :=
  max DEFAULT_OUTPUT_TOKENS configuredOutputTokens

/-- server.js (streaming variant): TOKEN_ESTIMATE_DIVISOR. -/
def TOKEN_ESTIMATE_DIVISOR : Nat := 4

/-- server.js (streaming variant): CONTEXT_TOKEN_BUDGET. -/
def CONTEXT_TOKEN_BUDGET : Nat := 20000

/-- server.js (streaming variant): PROMPT_TOKEN_BUDGET. -/
def PROMPT_TOKEN_BUDGET : Nat := 30000

/-- server.js (streaming variant): MAX_COMPLETION_ATTEMPTS. -/
def MAX_COMPLETION_ATTEMPTS : Nat := 2

/-- server.js (streaming variant): MIN_RETRY_TOKEN_BUFFER. -/
def MIN_RETRY_TOKEN_BUFFER : Nat := 1024

/-- server.js (streaming variant): MAX_HISTORY_MESSAGES. -/
def MAX_HISTORY_MESSAGES : Nat := 6

/-- server.js: `estimateTokens(text)` returns 0 for empty text and
`Math.ceil(text.length / 4)` otherwise; over naturals both cases are
`(length + 3) / 4`. -/
def estimateTokens (text : String) : Nat :=
  (text.length + (TOKEN_ESTIMATE_DIVISOR - 1)) / TOKEN_ESTIMATE_DIVISOR

/-! ### JS string primitives

`String.prototype.trim` / `toLowerCase` and suffix tests are modelled over
the character list of the string (JS indexes UTF-16 code units; all texts
involved here are equivalently indexed by code points). -/

/-- JS `String.prototype.trim`: strip whitespace from both ends. -/
def jsTrim (s : String) : String :=
  String.mk (((s.data.dropWhile Char.isWhitespace).reverse.dropWhile Char.isWhitespace).reverse)

/-- JS `String.prototype.toLowerCase` restricted to ASCII letters (the only
characters it changes in the strings this system compares). -/
def jsCharToLower (c : Char) : Char :=
  if 65 ≤ c.toNat ∧ c.toNat ≤ 90 then Char.ofNat (c.toNat + 32) else c

/-- JS `String.prototype.toLowerCase`. -/
def jsToLower (s : String) : String := String.mk (s.data.map jsCharToLower)

/-! ### Chunking (rag.js splitText)

The JS `while (start < text.length)` loop advances `start` by
`chunkSize - chunkOverlap` each iteration; that step can be zero
(`chunkSize <= chunkOverlap`), in which case the loop never terminates, so the
embedding is fuel-indexed: `none` means the fuel was exhausted with the loop
still running. -/

/-- One fuel-indexed run of the splitText loop. `start` and `acc` are the JS
loop variables (`acc` reversed; JS pushes to the end). -/
def splitTextGo (chunkSize chunkOverlap : Nat) (text : String) :
    Nat → Nat → List String → Option (List String)
  | 0, start, acc => if start < text.length then none else some acc.reverse
  | fuel + 1, start, acc =>
      if start < text.length then
        let chunk := jsTrim (String.mk ((text.data.drop start).take chunkSize))
        let acc2 := if chunk.length ≠ 0 then chunk :: acc else acc
        splitTextGo chunkSize chunkOverlap text fuel (start + (chunkSize - chunkOverlap)) acc2
      else some acc.reverse

/-- rag.js `splitText(text, chunkSize, chunkOverlap)`; fuel `text.length + 1`
suffices whenever the loop terminates at all (i.e. `chunkOverlap < chunkSize`). -/
def splitText (chunkSize chunkOverlap : Nat) (text : String) : Option (List String) :=
  splitTextGo chunkSize chunkOverlap text (text.length + 1) 0 []

/-! ### Cosine similarity (rag.js cosineSimilarity)

The JS loop runs over the indices of `a`, reading `b[i]`; the model uses
`zipWith`, which agrees with the source whenever the vectors have equal
length (the only case the scoring path produces). `Math.sqrt` is the abstract
argument `sq`. -/

/-- rag.js: accumulated `normA` / `normB` (sum of squares of the entries). -/
def normSqSum (v : List ℚ) : ℚ := (v.map (fun x => x * x)).sum

/-- rag.js `cosineSimilarity(a, b) = dot / (Math.sqrt(normA) * Math.sqrt(normB))`. -/
def cosineSimilarity (sq : ℚ → ℚ) (a b : List ℚ) : ℚ :=
  let dot := (List.zipWith (fun x y => x * y) a b).sum
  dot / (sq (normSqSum a) * sq (normSqSum b))

/-- The divisor of the unguarded division in cosineSimilarity. -/
def cosineDenominator (sq : ℚ → ℚ) (a b : List ℚ) : ℚ :=
  sq (normSqSum a) * sq (normSqSum b)

/-! ### Content store (backend/db.js)

The SQLite tables `documents`, `embeddings` and `indexing_jobs` are modelled
as lists in insertion order; AUTOINCREMENT row ids are modelled by the
counters `nextDocId` / `nextJobId`. -/

structure Document where
  id : Nat
  filename : String
  mtime : ℚ
  hash : String
deriving DecidableEq, Repr

structure Chunk where
  document_id : Nat
  chunk_index : Nat
  embedding : List ℚ
  text : String
deriving DecidableEq, Repr

inductive JobStatus where
  | running
  | success
  | jobError (msg : String)
deriving DecidableEq, Repr

structure Job where
  id : Nat
  filename : String
  status : JobStatus
  mtime : ℚ
  hash : String
deriving DecidableEq, Repr

structure Db where
  documents : List Document
  embeddings : List Chunk
  jobs : List Job
  nextDocId : Nat
  nextJobId : Nat
deriving DecidableEq, Repr

/-- db.js `getDocumentByFilename`: `SELECT * FROM documents WHERE filename = ?`,
`.get()` returns the first matching row. -/
def getDocumentByFilename (db : Db) (filename : String) : Option Document :=
  db.documents.find? (fun d => decide (d.filename = filename))

/-- db.js `replaceDocumentMetadata`: updates the existing row (and deletes all
its embeddings) or inserts a fresh row; returns the document id used. -/
def replaceDocumentMetadata (db : Db) (filename : String) (mtime : ℚ) (hash : String) :
    Nat × Db :=
  match db.documents.find? (fun d => decide (d.filename = filename)) with
  | some e =>
      (e.id,
       { db with
         documents := db.documents.map
           (fun d => if d.id = e.id then { d with mtime := mtime, hash := hash } else d),
         embeddings := db.embeddings.filter (fun c => decide (c.document_id ≠ e.id)) })
  | none =>
      (db.nextDocId,
       { db with
         documents := db.documents ++ [⟨db.nextDocId, filename, mtime, hash⟩],
         nextDocId := db.nextDocId + 1 })

/-- db.js `storeEmbeddingChunk`: INSERT INTO embeddings. -/
def storeEmbeddingChunk (db : Db) (documentId chunkIndex : Nat)
    (embedding : List ℚ) (text : String) : Db :=
  { db with embeddings := db.embeddings ++ [⟨documentId, chunkIndex, embedding, text⟩] }

/-- A row of db.js `getAllEmbeddings` (embeddings JOIN documents). -/
structure EmbeddingRow where
  filename : String
  chunk_index : Nat
  embedding : List ℚ
  text : String
deriving DecidableEq, Repr

/-- db.js `getAllEmbeddings`: inner join of embeddings with documents on
document id, in embeddings insertion order. -/
def getAllEmbeddings (db : Db) : List EmbeddingRow :=
  db.embeddings.filterMap (fun c =>
    (db.documents.find? (fun d => decide (d.id = c.document_id))).map
      (fun d => ⟨d.filename, c.chunk_index, c.embedding, c.text⟩))

/-- db.js `startIndexingJob`: INSERT a `running` job, returning its id. -/
def startIndexingJob (db : Db) (filename : String) (mtime : ℚ) (hash : String) :
    Nat × Db :=
  (db.nextJobId,
   { db with
     jobs := db.jobs ++ [⟨db.nextJobId, filename, .running, mtime, hash⟩],
     nextJobId := db.nextJobId + 1 })

/-- db.js `completeIndexingJob`: UPDATE the job row to `success`. -/
def completeIndexingJob (db : Db) (jobId : Nat) : Db :=
  { db with
    jobs := db.jobs.map (fun j => if j.id = jobId then { j with status := .success } else j) }

/-- db.js `failIndexingJob`: UPDATE the job row to `error` with the message. -/
def failIndexingJob (db : Db) (jobId : Nat) (msg : String) : Db :=
  { db with
    jobs := db.jobs.map (fun j => if j.id = jobId then { j with status := .jobError msg } else j) }

/-- The stored chunk set belonging to one document id. -/
def chunksFor (db : Db) (docId : Nat) : List Chunk :=
  db.embeddings.filter (fun c => decide (c.document_id = docId))

/-- Well-formedness of the store: every stored row references an id below the
AUTOINCREMENT counter (guaranteed by SQLite; needed so a freshly inserted
document id is not already used by stale chunks). -/
def WfDb (db : Db) : Prop :=
  (∀ d ∈ db.documents, d.id < db.nextDocId) ∧
  (∀ c ∈ db.embeddings, c.document_id < db.nextDocId)

instance (db : Db) : Decidable (WfDb db) := by
  unfold WfDb; infer_instance

/-! ### Ingestion engine (rag.js ingestDocument / ingestDocuments)

External collaborators are an explicit environment: the file system
(`fsys`, mirroring `fs.statSync`/`fs.readFileSync`: modification time and raw
bytes, `none` when the file does not exist), the SHA-256 digest (`hashFn`),
PDF text extraction (`pdfExtract`, fallible) and the batched embedding call
(`embed`, fallible, one vector per input chunk in the successful case). -/

structure IngestEnv where
  fsys : String → Option (ℚ × String)
  hashFn : String → String
  pdfExtract : String → Except String String
  embed : List String → Except String (List (List ℚ))

inductive IngestStatus where
  | skipped
  | indexed (chunks : Nat)
  | errored (msg : String)
deriving DecidableEq, Repr

/-- The per-file result object of rag.js (`{ filename, status, chunks? }`). -/
structure IngestResult where
  filename : String
  status : IngestStatus
deriving DecidableEq, Repr

/-- The changed-document path of rag.js `ingestDocument` (everything after the
unchanged check): open a job, extract, chunk, embed, replace metadata, store
the chunk batch, close the job; any failure marks the job `error` and
propagates. -/
def ingestChanged (env : IngestEnv) (db : Db) (filename : String)
    (mtime : ℚ) (buffer hash : String) : Except String IngestResult × Db :=
  let started := startIndexingJob db filename mtime hash
  let jobId := started.1
  let db1 := started.2
  match env.pdfExtract buffer with
  | .error e => (.error e, failIndexingJob db1 jobId e)
  | .ok text =>
    let chunks := (splitText CONFIG_retrieval_chunkSize CONFIG_retrieval_chunkOverlap text).getD []
    match env.embed chunks with
    | .error e => (.error e, failIndexingJob db1 jobId e)
    | .ok embeddings =>
      let replaced := replaceDocumentMetadata db1 filename mtime hash
      let docId := replaced.1
      let db3 := embeddings.enum.foldl
        (fun s p => storeEmbeddingChunk s docId p.1 p.2 (chunks.getD p.1 "")) replaced.2
      (.ok ⟨filename, .indexed chunks.length⟩, completeIndexingJob db3 jobId)

/-- rag.js `ingestDocument(db, client, filename)`: missing file fails; a
document whose stored hash and mtime both match is skipped with no writes;
otherwise the changed-document path runs. -/
def ingestDocument (env : IngestEnv) (db : Db) (filename : String) :
    Except String IngestResult × Db :=
  match env.fsys filename with
  | none => (.error ("File " ++ filename ++ " no longer exists"), db)
  | some stat =>
    let mtime := stat.1
    let buffer := stat.2
    let hash := env.hashFn buffer
    match getDocumentByFilename db filename with
    | some existing =>
        if existing.hash = hash ∧ existing.mtime = mtime then
          (.ok ⟨filename, .skipped⟩, db)
        else
          ingestChanged env db filename mtime buffer hash
    | none => ingestChanged env db filename mtime buffer hash

/-- Is this per-file result an error entry? -/
def IngestResult.isErr (r : IngestResult) : Bool :=
  match r.status with
  | .errored _ => true
  | _ => false

/-- The for-loop body of rag.js `ingestDocuments`: run one file, record either
its result or an error entry, thread the store state. -/
def ingestStep (env : IngestEnv) (acc : List IngestResult × Db) (file : String) :
    List IngestResult × Db :=
  let r := ingestDocument env acc.2 file
  match r.1 with
  | .ok result => (acc.1 ++ [result], r.2)
  | .error e => (acc.1 ++ [⟨file, .errored e⟩], r.2)

/-- The whole for-loop of rag.js `ingestDocuments` over the already-filtered
file list: accumulated per-file results plus the final store state. -/
def ingestRun (env : IngestEnv) (db : Db) (files : List String) :
    List IngestResult × Db :=
  files.foldl (ingestStep env) ([], db)

/-- The `.pdf` filter of rag.js `ingestDocuments`
(`file.toLowerCase().endsWith('.pdf')`). -/
def eligiblePdfFiles (allFiles : List String) : List String :=
  allFiles.filter (fun f => (".pdf" : String).data.isSuffixOf (jsToLower f).data)

/-- rag.js `ingestDocuments(db, client)`: scan the directory listing, ingest
every eligible file independently, then fail naming the failed files if any
file failed. -/
def ingestDocuments (env : IngestEnv) (db : Db) (allFiles : List String) :
    Except String (List IngestResult) × Db :=
  let files := eligiblePdfFiles allFiles
  if files.isEmpty then (.ok [], db)
  else
    let run := ingestRun env db files
    let failed := run.1.filter (fun r => r.isErr)
    if failed.isEmpty then (.ok run.1, run.2)
    else
      (.error ("Failed to ingest: " ++ String.intercalate ", " (failed.map (fun r => r.filename))),
       run.2)

/-! ### Retriever (rag.js retrieveContext)

The cosine scoring function (including `Math.sqrt`) is abstracted as `sim`;
the query embedding returned by the embedding endpoint is an explicit
argument. `scored.sort((a, b) => b.score - a.score)` is a stable descending
sort, modelled by `mergeSort` with the total preorder `b.score ≤ a.score`. -/

structure ScoredChunk where
  score : ℚ
  filename : String
  chunkIndex : Nat
  text : String
deriving DecidableEq, Repr

structure ContextChunk where
  text : String
  filename : String
  chunkIndex : Nat
  score : ℚ
deriving DecidableEq, Repr

structure RetrievalOut where
  contextChunks : List ContextChunk
  sources : List ScoredChunk
  maxScore : Option ℚ
deriving DecidableEq, Repr

/-- The JS comparison `score >= CONFIG.retrieval.minScore`: comparing with the
JS value `undefined` (modelled `none`) is always false. -/
def jsGe (x : ℚ) (threshold : Option ℚ) : Bool :=
  match threshold with
  | some v => decide (v ≤ x)
  | none => false

/-- rag.js `retrieveContext`: score every stored row, sort descending
(stable), keep the first topK, record the top raw score, then filter by the
minimum-score comparison, and format the surviving chunks. -/
def retrieveContext (sim : List ℚ → List ℚ → ℚ) (rows : List EmbeddingRow)
    (queryEmbedding : List ℚ) : RetrievalOut :=
  if rows.isEmpty then ⟨[], [], none⟩
  else
    let scored := rows.map (fun row =>
      ScoredChunk.mk (sim queryEmbedding row.embedding) row.filename row.chunk_index row.text)
    let top := (scored.mergeSort (fun a b => decide (b.score ≤ a.score))).take CONFIG_retrieval_topK
    let maxScore := top.head?.map ScoredChunk.score
    let filtered := top.filter (fun item => jsGe item.score CONFIG_retrieval_minScore)
    ⟨filtered.map (fun item =>
        ⟨"Source: " ++ item.filename ++ " [chunk " ++ toString item.chunkIndex ++ "]\n" ++ item.text,
         item.filename, item.chunkIndex, item.score⟩),
     filtered, maxScore⟩

/-! ### Completion orchestrator (server.js, streaming variant)

One chat attempt against the inference endpoint is an oracle value; the
orchestrator's retry loop is fuel-indexed by the remaining attempts
(`MAX_COMPLETION_ATTEMPTS` initially). Besides the result, each model
returns the trace of issued requests so the retry behaviour is observable. -/

/-- server.js: the retry growth
`maxTokens = Math.min(cap, Math.max(Math.floor(maxTokens * 2), maxTokens + MIN_RETRY_TOKEN_BUFFER))`. -/
def nextMaxTokens (cap m : Nat) : Nat :=
  min cap (max (2 * m) (m + MIN_RETRY_TOKEN_BUFFER))

/-- Outcome of one non-streaming completion call. A JS falsy finish_reason
(missing or empty string) is encoded as `none`. -/
inductive GenOutcome where
  | errored (msg : String)
  | noChoices
  | completed (finishReason : Option String) (content : String)
deriving DecidableEq, Repr

/-- server.js `analyzeCompletion`: a completion is invalid when its trimmed
content is empty, its finish reason is missing, or the finish reason is not
the natural `stop`. -/
def analyzeInvalid (finishReason : Option String) (rawContent : String) : Bool :=
  let content := jsTrim rawContent
  let hasContent := decide (content ≠ "")
  let invalidFinishReason := match finishReason with
    | some s => decide (s ≠ "stop")
    | none => false
  let missingFinishReason := finishReason.isNone
  !hasContent || invalidFinishReason || missingFinishReason

/-- The while loop of server.js `generateCompletionWithRecovery`; `fuel` is
the number of attempts still allowed, `outcomes` feeds one oracle outcome per
issued request (head first). Returns the result (reply text and finish
reason, or the last error) and the `max_tokens` value of every issued
request. -/
def generateCompletionGo (cap : Nat) :
    List GenOutcome → Nat → Nat → Option String →
    Except String (String × Option String) × List Nat
  | _, 0, _, lastError =>
      (.error (lastError.getD "LLM response was empty or invalid after retries"), [])
  | outcomes, fuel + 1, maxTokens, _ =>
      let retry := fun (err : String) =>
        if fuel = 0 then (.error err, [maxTokens])
        else
          let rec2 := generateCompletionGo cap outcomes.tail fuel (nextMaxTokens cap maxTokens) (some err)
          (rec2.1, maxTokens :: rec2.2)
      match outcomes.headD (.errored "no outcome") with
      | .errored e => retry e
      | .noChoices => retry "LM Studio returned no choices"
      | .completed finishReason rawContent =>
          if analyzeInvalid finishReason rawContent then
            retry "LLM returned an invalid response"
          else (.ok (jsTrim rawContent, finishReason), [maxTokens])

/-- server.js `generateCompletionWithRecovery(messages, initialMaxTokens)`. -/
def generateCompletionWithRecovery (cap : Nat) (outcomes : List GenOutcome)
    (initialMaxTokens : Nat) : Except String (String × Option String) × List Nat :=
  generateCompletionGo cap outcomes MAX_COMPLETION_ATTEMPTS initialMaxTokens none

/-- Outcome of one streamed completion call: the content deltas relayed in
order, the last truthy finish_reason seen (if the stream ended cleanly), and
the error the stream threw after those deltas (if it did not). -/
structure StreamAttempt where
  deltas : List String
  finish : Option String
  failAfter : Option String
deriving DecidableEq, Repr

/-- server.js: `collected`, the concatenation of all (truthy) deltas. -/
def collectedText (a : StreamAttempt) : String := String.join a.deltas

/-- server.js: the deltas actually handed to `onToken` (the truthy ones). -/
def pushedDeltas (a : StreamAttempt) : List String :=
  a.deltas.filter (fun d => decide (d ≠ ""))

/-- The placeholder outcome used when the oracle list is exhausted (the
orchestrator never issues more requests than outcomes supplied in the claims
below). -/
def defaultStreamAttempt : StreamAttempt := ⟨[], none, some "no stream outcome"⟩

/-- Result record of server.js `streamCompletionWithRecovery`. -/
structure StreamResult where
  replyText : String
  finishReason : String
  interrupted : Bool
deriving DecidableEq, Repr

/-- The while loop of server.js `streamCompletionWithRecovery`. The trace
records, per issued request, its `max_tokens` and the deltas pushed to the
caller. A mid-stream failure with tokens already collected returns the
collected text marked interrupted; a zero-token failure (or a clean but empty
stream) retries with a grown token ceiling while attempts remain. -/
def streamCompletionGo (cap : Nat) :
    List StreamAttempt → Nat → Nat → Option String →
    Except String StreamResult × List (Nat × List String)
  | _, 0, _, lastError =>
      (.error (lastError.getD "LLM stream was empty or invalid after retries"), [])
  | attempts, fuel + 1, maxTokens, _ =>
      let a := attempts.headD defaultStreamAttempt
      let issued := (maxTokens, pushedDeltas a)
      let retry := fun (err : String) =>
        if fuel = 0 then (.error err, [issued])
        else
          let rec2 := streamCompletionGo cap attempts.tail fuel (nextMaxTokens cap maxTokens) (some err)
          (rec2.1, issued :: rec2.2)
      match a.failAfter with
      | some e =>
          if collectedText a = "" then retry e
          else (.ok ⟨collectedText a, "error", true⟩, [issued])
      | none =>
          if collectedText a = "" then retry "Stream returned no tokens"
          else (.ok ⟨collectedText a, a.finish.getD "streamed", false⟩, [issued])

/-- server.js `streamCompletionWithRecovery(messages, initialMaxTokens, requestId, onToken)`. -/
def streamCompletionWithRecovery (cap : Nat) (attempts : List StreamAttempt)
    (initialMaxTokens : Nat) : Except String StreamResult × List (Nat × List String) :=
  streamCompletionGo cap attempts MAX_COMPLETION_ATTEMPTS initialMaxTokens none

/-! ### Chat handler (server.js, streaming variant, POST /api/chat)

The handler is modelled as a pure function from its inputs and oracle
outcomes to the ordered list of externally visible effects (store writes,
stream events, completion requests). -/

inductive Effect where
  | userMsg (text : String)
  | assistantMsg (text : String)
  | interaction (ragSources : List String)
  | completionRequest (maxTokens : Nat)
  | pushToken (text : String)
  | streamDone (finishReason : String)
deriving DecidableEq, Repr

/-- server.js `isGreeting`: trim, lower-case, strip the punctuation class
`[!,.。！？]`, then test membership in the fixed greeting list. -/
def isGreeting (text : String) : Bool :=
  let normalized := String.mk
    ((jsToLower (jsTrim text)).data.filter (fun c => !(['!', ',', '.', '。', '！', '？'].contains c)))
  (["hi", "hello", "hey", "hola", "你好", "您好"] : List String).contains normalized

/-- server.js `detectLanguage`: `zh` when the text has a non-ASCII character
and a CJK unified ideograph, else `en`. -/
def detectLanguage (text : String) : String :=
  if text.toList.any (fun c => decide (127 < c.toNat)) &&
     text.toList.any (fun c => decide (0x4e00 ≤ c.toNat) && decide (c.toNat ≤ 0x9fff)) then
    "zh"
  else "en"

/-- server.js `getInstructionTexts`: the fixed safety instruction. -/
def safetyInstruction : String :=
  "Use only the provided RAG context to answer. If the context is missing or insufficient, say you cannot find the information and ask for a specific product name or documentation. Never invent details."

/-- server.js `getInstructionTexts`: the per-language instruction. -/
def languageInstruction (language : String) : String :=
  if language = "zh" then
    "请使用用户提问的语言进行回答，若缺少上下文，请礼貌告知无法找到相关信息，不要猜测。"
  else
    "Respond in the user\x27s language. If you lack sufficient context, politely state that and do not guess."

/-- server.js: the canned greeting reply per detected language. -/
def greetingReply (language : String) : String :=
  if language = "zh" then "你好！很高兴和你交流，我可以怎样帮助你？"
  else "Hello! How can I help you today?"

/-- server.js: the canned no-context reply per detected language. -/
def noDataReply (language : String) : String :=
  if language = "zh" then
    "没有找到相关的文档内容。请告诉我具体的产品名称或型号，或上传对应的PDF文件，我可以立即为你查阅。你希望我查看哪款产品？"
  else
    "I could not find relevant information in the indexed documents. Which exact product or document should I check? Please share the product name/model or upload the related PDF so I can help right away."

/-- server.js `buildFallbackReply`. -/
def buildFallbackReply (language : String) : String :=
  if language = "zh" then
    "我暂时无法生成完整的回答。请告诉我具体的产品名称、型号或提供相关PDF，我会立即再次查找。"
  else
    "I ran into an issue generating a complete answer. Please share the exact product name, model, or upload the related PDF so I can try again right away."

/-- server.js `getTrimmedHistory`: `history.slice(-MAX_HISTORY_MESSAGES)`
(role, content pairs). -/
def getTrimmedHistory (history : List (String × String)) : List (String × String) :=
  history.drop (history.length - MAX_HISTORY_MESSAGES)

/-- server.js chat handler: `systemTokens`, the reserved cost of the system
prompt and instruction messages plus the fixed 50-token overhead. -/
def systemTokensOf (systemPrompt language : String) : Nat :=
  estimateTokens systemPrompt + estimateTokens safetyInstruction +
    estimateTokens (languageInstruction language) + 50

/-- server.js chat handler: `conversationTokens`, the summed estimate over the
trimmed history. -/
def conversationTokensOf (history : List (String × String)) : Nat :=
  ((getTrimmedHistory history).map (fun m => estimateTokens m.2)).sum

/-- server.js chat handler: the
`while (reservedTokens > CONTEXT_TOKEN_BUDGET && selectedContext.length > 0) selectedContext.pop()`
trimming loop over (chunk text, token estimate) pairs; `base` is
`systemTokens + conversationTokens`. -/
def trimContextGo (base : Nat) : Nat → List (String × Nat) → List (String × Nat)
  | 0, ctx => ctx
  | fuel + 1, ctx =>
      if CONTEXT_TOKEN_BUDGET < base + (ctx.map Prod.snd).sum ∧ ctx ≠ [] then
        trimContextGo base fuel ctx.dropLast
      else ctx

/-- The trimming loop; each iteration removes one element, so fuel
`ctx.length` never runs out before the loop condition fails. -/
def trimContext (base : Nat) (ctx : List (String × Nat)) : List (String × Nat) :=
  trimContextGo base ctx.length ctx

/-- server.js POST /api/chat (streaming variant): the whole turn as an effect
trace. `retrieval` is the outcome of the `retrieveContext` call (its context
chunk texts and its sources), `attempts` feeds the streamed completion
attempts, `cap` is `CONFIG.outputTokenCap`. -/
def chatHandler (cap : Nat) (systemPrompt : String) (history : List (String × String))
    (retrieval : Except String (List String × List String))
    (attempts : List StreamAttempt) (message : String) : List Effect :=
  let language := detectLanguage message
  let greeting := greetingReply language
  if isGreeting message then
    [.userMsg message, .assistantMsg greeting, .interaction [], .pushToken greeting,
     .streamDone "greeting"]
  else
    match retrieval with
    | .error _ =>
        let fb := buildFallbackReply language
        [.userMsg message, .pushToken fb, .assistantMsg fb, .interaction [],
         .streamDone "fallback"]
    | .ok (contextChunks, sources) =>
        let base := systemTokensOf systemPrompt language + conversationTokensOf history
        let selectedContext :=
          trimContext base (contextChunks.map (fun c => (c, estimateTokens c)))
        let reservedTokens := base + (selectedContext.map Prod.snd).sum
        if PROMPT_TOKEN_BUDGET ≤ reservedTokens then
          let fb := buildFallbackReply language
          [.userMsg message, .pushToken fb, .assistantMsg fb, .interaction [],
           .streamDone "fallback"]
        else if PROMPT_TOKEN_BUDGET - reservedTokens < CONFIG_minCompletionTokens then
          let fb := buildFallbackReply language
          [.userMsg message, .pushToken fb, .assistantMsg fb, .interaction [],
           .streamDone "fallback"]
        else
          let maxGenerationTokens := min cap (PROMPT_TOKEN_BUDGET - reservedTokens)
          let finalSources := sources.take selectedContext.length
          if selectedContext.length = 0 then
            let nd := noDataReply language
            [.userMsg message, .assistantMsg nd, .interaction [], .pushToken nd,
             .streamDone "no_context"]
          else
            let run := streamCompletionWithRecovery cap attempts maxGenerationTokens
            let streamEffects :=
              (run.2.map (fun e => Effect.completionRequest e.1 :: e.2.map Effect.pushToken)).flatten
            let streamedText := String.join (run.2.map Prod.snd).flatten
            match run.1 with
            | .ok res =>
                let finalReply := if jsTrim res.replyText = "" then streamedText else res.replyText
                Effect.userMsg message :: streamEffects ++
                  [.assistantMsg finalReply, .interaction finalSources,
                   .streamDone res.finishReason]
            | .error _ =>
                if streamedText = "" then
                  let fb := buildFallbackReply language
                  Effect.userMsg message :: streamEffects ++
                    [.pushToken fb, .assistantMsg fb, .interaction [], .streamDone "fallback"]
                else
                  Effect.userMsg message :: streamEffects ++
                    [.assistantMsg streamedText, .interaction [], .streamDone "fallback"]

/-! ### Supporting lemmas -/

theorem normSqSum_nonneg (v : List ℚ) : 0 ≤ normSqSum v := by
  apply List.sum_nonneg
  intro x hx
  rcases List.mem_map.mp hx with ⟨y, _, rfl⟩
  exact mul_self_nonneg y

theorem normSqSum_eq_zero_iff (v : List ℚ) : normSqSum v = 0 ↔ ∀ x ∈ v, x = 0 := by
  induction v with
  | nil => simp [normSqSum]
  | cons x xs ih =>
    have hx : (0 : ℚ) ≤ x * x := mul_self_nonneg x
    have hs : (0 : ℚ) ≤ normSqSum xs := normSqSum_nonneg xs
    unfold normSqSum at *
    simp only [List.map_cons, List.sum_cons]
    rw [add_eq_zero_iff_of_nonneg hx hs, mul_self_eq_zero, ih, List.forall_mem_cons]

theorem splitTextGo_one_one_stuck :
    ∀ (fuel : Nat) (acc : List String), splitTextGo 1 1 "a" fuel 0 acc = none := by
  intro fuel
  induction fuel with
  | zero => intro acc; rfl
  | succ n ih =>
      intro acc
      have h1 : (0 : Nat) < ("a" : String).length := by decide
      rw [splitTextGo]
      simp only [h1, if_true]
      exact ih _

theorem splitTextGo_isSome (C O : Nat) (text : String) (h : O < C) :
    ∀ (fuel start : Nat) (acc : List String), text.length - start < fuel →
      ∃ cs, splitTextGo C O text fuel start acc = some cs := by
  intro fuel
  induction fuel with
  | zero => intro start acc hlt; exact absurd hlt (Nat.not_lt_zero _)
  | succ n ih =>
      intro start acc hlt
      by_cases hs : start < text.length
      · rw [splitTextGo]
        simp only [hs, if_true]
        exact ih _ _ (by omega)
      · exact ⟨acc.reverse, by rw [splitTextGo]; simp [hs]⟩

theorem splitTextGo_nonempty (C O : Nat) (text : String) :
    ∀ (fuel start : Nat) (acc cs : List String), (∀ c ∈ acc, c ≠ "") →
      splitTextGo C O text fuel start acc = some cs → ∀ c ∈ cs, c ≠ "" := by
  intro fuel
  induction fuel with
  | zero =>
      intro start acc cs hacc hrun
      rw [splitTextGo] at hrun
      by_cases hs : start < text.length
      · simp [hs] at hrun
      · simp only [hs, if_false] at hrun
        cases hrun
        intro c hc
        exact hacc c (List.mem_reverse.mp hc)
  | succ n ih =>
      intro start acc cs hacc hrun
      rw [splitTextGo] at hrun
      by_cases hs : start < text.length
      · simp only [hs, if_true] at hrun
        refine ih _ _ _ ?_ hrun
        by_cases hchunk : (jsTrim (String.mk ((text.data.drop start).take C))).length ≠ 0
        · intro c hc
          rw [if_pos hchunk] at hc
          rcases List.mem_cons.mp hc with rfl | hmem
          · intro he; rw [he] at hchunk; exact hchunk rfl
          · exact hacc c hmem
        · intro c hc
          rw [if_neg hchunk] at hc
          exact hacc c hc
      · simp only [hs, if_false] at hrun
        cases hrun
        intro c hc
        exact hacc c (List.mem_reverse.mp hc)

theorem splitTextGo_fuel_irrel (C O : Nat) (text : String) (h : O < C) :
    ∀ (f1 f2 start : Nat) (acc : List String),
      text.length - start < f1 → text.length - start < f2 →
      splitTextGo C O text f1 start acc = splitTextGo C O text f2 start acc := by
  intro f1
  induction f1 with
  | zero => intro f2 start acc h1 h2; exact absurd h1 (Nat.not_lt_zero _)
  | succ n ih =>
      intro f2 start acc h1 h2
      by_cases hs : start < text.length
      · cases f2 with
        | zero => exact absurd h2 (by omega)
        | succ m =>
            rw [splitTextGo, splitTextGo]
            simp only [hs, if_true]
            exact ih m _ _ (by omega) (by omega)
      · cases f2 with
        | zero => rw [splitTextGo, splitTextGo]; simp [hs]
        | succ m => rw [splitTextGo, splitTextGo]; simp [hs]

/-! ### Claim C9: chunking totality and determinism -/

/-- C9 counterexample: for chunk size 1 and overlap 1 (a configurable
combination with a non-positive step) on the one-character text "a", the
splitText loop never terminates: no amount of fuel completes it, so the
claim quantified over every configurable chunk size and overlap is false. -/
theorem C9_counterexample :
    splitText 1 1 "a" = none ∧
    ¬ ∃ chunks fuel, splitTextGo 1 1 "a" fuel 0 [] = some chunks := by
  constructor
  · exact splitTextGo_one_one_stuck 2 []
  · rintro ⟨cs, fuel, hrun⟩
    rw [splitTextGo_one_one_stuck fuel []] at hrun
    exact Option.noConfusion hrun

/-- C9 (amended): whenever the configured overlap is strictly smaller than
the chunk size (as the shipped configuration 800/100 is), splitText
terminates, every produced chunk is non-empty, and the outcome is the same
for every sufficient fuel bound, so the chunk list is a deterministic
function of the input text. -/
theorem C9_splitText_total_deterministic (C O : Nat) (text : String) (h : O < C) :
    (∃ cs, splitText C O text = some cs ∧ ∀ c ∈ cs, c ≠ "") ∧
    (∀ f1 f2 : Nat, text.length < f1 → text.length < f2 →
       splitTextGo C O text f1 0 [] = splitTextGo C O text f2 0 []) := by
  constructor
  · obtain ⟨cs, hcs⟩ := splitTextGo_isSome C O text h (text.length + 1) 0 [] (by omega)
    exact ⟨cs, hcs, splitTextGo_nonempty C O text _ _ _ _ (by simp) hcs⟩
  · intro f1 f2 h1 h2
    exact splitTextGo_fuel_irrel C O text h f1 f2 0 [] (by omega) (by omega)

/-- C9 witness: the shipped configuration (chunk size 800, overlap 100)
satisfies the amended hypothesis and chunks a concrete text. -/
theorem C9_witness :
    100 < 800 ∧ ∃ cs, splitText 800 100 "hello world" = some cs ∧ ∀ c ∈ cs, c ≠ "" :=
  ⟨by decide, (C9_splitText_total_deterministic 800 100 "hello world" (by decide)).1⟩

/-! ### Claim C10: cosine similarity precondition -/

/-- C10: for equal-length vectors the divisor of the unguarded division in
cosineSimilarity vanishes exactly when one of the vectors is the zero vector;
`sq` abstracts `Math.sqrt`, constrained by `sqrt 0 = 0` and positivity on
positive inputs. In JS a zero divisor makes the similarity NaN, so retrieval
scoring is well-defined only for non-zero stored and query embeddings. -/
theorem C10_cosineDenominator_zero_iff (sq : ℚ → ℚ) (hsq0 : sq 0 = 0)
    (hsqpos : ∀ x : ℚ, 0 < x → sq x ≠ 0) (a b : List ℚ)
    (_hlen : a.length = b.length) :
    cosineDenominator sq a b = 0 ↔ ((∀ x ∈ a, x = 0) ∨ (∀ x ∈ b, x = 0)) := by
  have key : ∀ v : List ℚ, (sq (normSqSum v) = 0 ↔ ∀ x ∈ v, x = 0) := by
    intro v
    constructor
    · intro hz
      by_contra hne
      have hv : normSqSum v ≠ 0 := fun h0 => hne ((normSqSum_eq_zero_iff v).mp h0)
      have hpos : 0 < normSqSum v := lt_of_le_of_ne (normSqSum_nonneg v) (Ne.symm hv)
      exact hsqpos _ hpos hz
    · intro hall
      rw [(normSqSum_eq_zero_iff v).mpr hall, hsq0]
  unfold cosineDenominator
  rw [mul_eq_zero, key a, key b]

/-- C10 witness: instantiated at the admissible square root `id` (which obeys
both constraints) and the concrete equal-length vectors [1] and [0]. -/
theorem C10_witness :
    (id (0 : ℚ) = 0) ∧ ([(1 : ℚ)].length = [(0 : ℚ)].length) ∧
    (cosineDenominator id [(1 : ℚ)] [(0 : ℚ)] = 0 ↔
      ((∀ x ∈ [(1 : ℚ)], x = 0) ∨ (∀ x ∈ [(0 : ℚ)], x = 0))) :=
  ⟨rfl, rfl,
   C10_cosineDenominator_zero_iff id rfl (fun _ hx => ne_of_gt hx) [1] [0] rfl⟩

/-! ### Claim C1: retrieval ranking and the missing minScore -/

/-- C1 (code bug): `CONFIG.retrieval` defines no `minScore`, and the JS
comparison `score >= undefined` is false for every score, so retrieveContext
returns zero chunks for every corpus and query; on a corpus containing a
perfect-score chunk (cosine similarity 1) it still returns no chunks, while
maxScore faithfully reports the raw top score 1. -/
theorem C1_missing_minScore_filters_all :
    (retrieveContext (cosineSimilarity id) [⟨"a.pdf", 0, [1], "text"⟩] [1]
       = ⟨[], [], some 1⟩) ∧
    ∀ (sim : List ℚ → List ℚ → ℚ) (rows : List EmbeddingRow) (q : List ℚ),
      (retrieveContext sim rows q).contextChunks = [] ∧
      (retrieveContext sim rows q).sources = [] := by
  constructor
  · unfold retrieveContext
    simp [List.mergeSort_singleton, CONFIG_retrieval_topK, jsGe, CONFIG_retrieval_minScore,
          cosineSimilarity, normSqSum]
  · intro sim rows q
    unfold retrieveContext
    by_cases h : rows.isEmpty <;>
      simp [h, jsGe, CONFIG_retrieval_minScore]

/-! ### Completion retry lemmas -/

theorem nextMaxTokens_le_cap (cap m : Nat) : nextMaxTokens cap m ≤ cap :=
  min_le_left _ _

theorem lt_nextMaxTokens (cap m : Nat) (h : m < cap) : m < nextMaxTokens cap m := by
  unfold nextMaxTokens MIN_RETRY_TOKEN_BUFFER
  exact lt_min h (lt_of_lt_of_le (by omega) (le_max_right (2 * m) (m + 1024)))

theorem generateCompletionGo_one_trace (cap m : Nat) (os : List GenOutcome)
    (le : Option String) : (generateCompletionGo cap os 1 m le).2 = [m] := by
  cases h0 : os.head?.getD (.errored "no outcome") with
  | errored e => simp [generateCompletionGo, h0]
  | noChoices => simp [generateCompletionGo, h0]
  | completed fr c =>
      by_cases hinv : analyzeInvalid fr c
      · simp [generateCompletionGo, h0, hinv]
      · simp [generateCompletionGo, h0, hinv]

theorem generateCompletionGo_trace_shape (cap m fuel : Nat) (os : List GenOutcome)
    (le : Option String) :
    (generateCompletionGo cap os (fuel + 1) m le).2 = [m] ∨
    ∃ e, fuel ≠ 0 ∧
      (generateCompletionGo cap os (fuel + 1) m le).2
        = m :: (generateCompletionGo cap os.tail fuel (nextMaxTokens cap m) (some e)).2 := by
  by_cases hf : fuel = 0
  · subst hf
    exact Or.inl (generateCompletionGo_one_trace cap m os le)
  · cases h0 : os.head?.getD (.errored "no outcome") with
    | errored e =>
        exact Or.inr ⟨e, hf, by simp [generateCompletionGo, h0, hf]⟩
    | noChoices =>
        exact Or.inr ⟨"LM Studio returned no choices", hf,
          by simp [generateCompletionGo, h0, hf]⟩
    | completed fr c =>
        by_cases hinv : analyzeInvalid fr c
        · exact Or.inr ⟨"LLM returned an invalid response", hf,
            by simp [generateCompletionGo, h0, hf, hinv]⟩
        · exact Or.inl (by simp [generateCompletionGo, h0, hinv])

theorem generateCompletionWithRecovery_trace (cap m : Nat) (os : List GenOutcome) :
    (generateCompletionWithRecovery cap os m).2 = [m] ∨
    (generateCompletionWithRecovery cap os m).2 = [m, nextMaxTokens cap m] := by
  unfold generateCompletionWithRecovery MAX_COMPLETION_ATTEMPTS
  rcases generateCompletionGo_trace_shape cap m 1 os none with h | ⟨e, _, h⟩
  · exact Or.inl h
  · rw [show (2 : Nat) = 1 + 1 from rfl, h, generateCompletionGo_one_trace]
    exact Or.inr rfl

/-! ### Claim C5: retry growth -/

/-- C5 counterexample: when the first request already uses the full output
cap (as happens for any small prompt, where the streaming handler issues its
first request at `min(outputTokenCap, remaining) = outputTokenCap = 4096`),
the retry re-issues the same ceiling, so the second ceiling does not strictly
exceed the first. -/
theorem C5_counterexample :
    Effect.completionRequest 4096 ∈
      chatHandler (CONFIG_outputTokenCap 4096) "" [] (.ok (["ctx"], ["src"]))
        [⟨["answer"], some "stop", none⟩] "tell me about the product" ∧
    (generateCompletionWithRecovery (CONFIG_outputTokenCap 4096)
        [.errored "boom", .errored "boom again"] 4096).2 = [4096, 4096] ∧
    ¬ (4096 : Nat) < 4096 := by
  refine ⟨?_, ?_, by decide⟩
  · set_option maxRecDepth 100000 in decide
  · decide

/-- C5 (amended): the orchestrator issues at most two requests; when a second
request is issued its ceiling is `min(cap, max(2·first, first + 1024))`,
which never exceeds the configured output-token cap and strictly exceeds the
first ceiling whenever the first ceiling was strictly below the cap (if the
first request already used the cap, the retry re-uses the cap). -/
theorem C5_retry_growth (cap m : Nat) (outcomes : List GenOutcome) (h : m < cap) :
    (generateCompletionWithRecovery cap outcomes m).2.length ≤ 2 ∧
    ∀ m2, (generateCompletionWithRecovery cap outcomes m).2 = [m, m2] →
      m2 = nextMaxTokens cap m ∧ m < m2 ∧ m2 ≤ cap := by
  rcases generateCompletionWithRecovery_trace cap m outcomes with h1 | h1 <;> rw [h1]
  · refine ⟨by simp, ?_⟩
    intro m2 hc
    simp at hc
  · refine ⟨by simp, ?_⟩
    intro m2 hc
    have he : nextMaxTokens cap m = m2 := by simpa using hc
    rw [← he]
    exact ⟨rfl, lt_nextMaxTokens cap m h, nextMaxTokens_le_cap cap m⟩

/-- C5 witness: concrete instance with the first ceiling strictly below the
cap. -/
theorem C5_witness :
    2048 < 4096 ∧
    ((generateCompletionWithRecovery 4096 [.errored "a", .errored "b"] 2048).2.length ≤ 2 ∧
     ∀ m2, (generateCompletionWithRecovery 4096 [.errored "a", .errored "b"] 2048).2 = [2048, m2] →
       m2 = nextMaxTokens 4096 2048 ∧ 2048 < m2 ∧ m2 ≤ 4096) :=
  ⟨by decide, C5_retry_growth 4096 2048 [.errored "a", .errored "b"] (by decide)⟩

/-! ### Streaming degradation lemmas -/

theorem streamCompletionGo_interrupted (cap m fuel : Nat) (atts : List StreamAttempt)
    (le : Option String) (a : StreamAttempt) (e : String)
    (hhead : atts.head?.getD defaultStreamAttempt = a) (hfail : a.failAfter = some e)
    (hc : collectedText a ≠ "") :
    streamCompletionGo cap atts (fuel + 1) m le
      = (.ok ⟨collectedText a, "error", true⟩, [(m, pushedDeltas a)]) := by
  simp [streamCompletionGo, hhead, hfail, hc]

theorem streamCompletionGo_retry_shape (cap m fuel : Nat) (atts : List StreamAttempt)
    (le : Option String) (a : StreamAttempt) (e : String)
    (hhead : atts.head?.getD defaultStreamAttempt = a) (hfail : a.failAfter = some e)
    (hc : collectedText a = "") (hf : fuel ≠ 0) :
    (streamCompletionGo cap atts (fuel + 1) m le).2
      = (m, pushedDeltas a) ::
        (streamCompletionGo cap atts.tail fuel (nextMaxTokens cap m) (some e)).2 := by
  simp [streamCompletionGo, hhead, hfail, hc, hf]

theorem streamCompletionGo_one_trace (cap m : Nat) (atts : List StreamAttempt)
    (le : Option String) :
    (streamCompletionGo cap atts 1 m le).2
      = [(m, pushedDeltas (atts.head?.getD defaultStreamAttempt))] := by
  cases hf : (atts.head?.getD defaultStreamAttempt).failAfter with
  | some e =>
      by_cases hc : collectedText (atts.head?.getD defaultStreamAttempt) = "" <;>
        simp [streamCompletionGo, hf, hc]
  | none =>
      by_cases hc : collectedText (atts.head?.getD defaultStreamAttempt) = "" <;>
        simp [streamCompletionGo, hf, hc]

/-! ### Claim C6: streaming degradation -/

/-- C6: when the streamed call fails after at least one token was delivered
(collected text non-empty), the orchestrator returns the collected text as
the reply, marked interrupted with finish reason `error`, and issues no
further request (exactly one request in the trace); when the stream fails
with zero tokens delivered, a second request is issued with the enlarged
ceiling `nextMaxTokens`. -/
theorem C6_stream_degradation (cap m : Nat) (attempts : List StreamAttempt)
    (a : StreamAttempt) (e : String)
    (hhead : attempts.head?.getD defaultStreamAttempt = a)
    (hfail : a.failAfter = some e) :
    (collectedText a ≠ "" →
       streamCompletionWithRecovery cap attempts m
         = (.ok ⟨collectedText a, "error", true⟩, [(m, pushedDeltas a)])) ∧
    (collectedText a = "" →
       (streamCompletionWithRecovery cap attempts m).2.map Prod.fst
         = [m, nextMaxTokens cap m]) := by
  constructor
  · intro hc
    unfold streamCompletionWithRecovery MAX_COMPLETION_ATTEMPTS
    rw [show (2 : Nat) = 1 + 1 from rfl]
    exact streamCompletionGo_interrupted cap m 1 attempts none a e hhead hfail hc
  · intro hc
    unfold streamCompletionWithRecovery MAX_COMPLETION_ATTEMPTS
    rw [show (2 : Nat) = 1 + 1 from rfl,
        streamCompletionGo_retry_shape cap m 1 attempts none a e hhead hfail hc one_ne_zero,
        streamCompletionGo_one_trace]
    simp

/-- C6 witness: a stream that delivers two tokens then fails is returned as
an interrupted reply with no retry; the same theorem instantiated at a
zero-token failure shows the retry is issued. -/
theorem C6_witness :
    (collectedText ⟨["Hel", "lo"], none, some "connection reset"⟩ ≠ "" →
       streamCompletionWithRecovery 4096 [⟨["Hel", "lo"], none, some "connection reset"⟩] 1000
         = (.ok ⟨collectedText ⟨["Hel", "lo"], none, some "connection reset"⟩, "error", true⟩,
            [(1000, pushedDeltas ⟨["Hel", "lo"], none, some "connection reset"⟩)])) ∧
    (collectedText ⟨["Hel", "lo"], none, some "connection reset"⟩ = "" →
       (streamCompletionWithRecovery 4096 [⟨["Hel", "lo"], none, some "connection reset"⟩] 1000).2.map
           Prod.fst
         = [1000, nextMaxTokens 4096 1000]) :=
  C6_stream_degradation 4096 1000 [⟨["Hel", "lo"], none, some "connection reset"⟩]
    ⟨["Hel", "lo"], none, some "connection reset"⟩ "connection reset" rfl rfl

/-! ### Claim C2: ingestion idempotence -/

/-- C2: when the file still exists and the stored document row for the
filename carries the same content hash and the same modification time, a
second ingestDocument call returns `skipped` and returns the store completely
unchanged: no ingestion job row, no document write, no chunk write, the chunk
set bit-for-bit identical. -/
theorem C2_ingest_idempotent (env : IngestEnv) (db : Db) (filename : String)
    (mtime : ℚ) (buffer : String) (d : Document)
    (hfs : env.fsys filename = some (mtime, buffer))
    (hdoc : getDocumentByFilename db filename = some d)
    (hhash : d.hash = env.hashFn buffer)
    (hmtime : d.mtime = mtime) :
    ingestDocument env db filename = (.ok ⟨filename, .skipped⟩, db) := by
  unfold ingestDocument
  rw [hfs]
  simp only []
  rw [hdoc]
  simp [hhash, hmtime]

/-- A concrete environment for the ingestion witnesses. -/
def witnessEnv : IngestEnv where
  fsys := fun f => if f = "a.pdf" then some (5, "RAWBYTES") else none
  hashFn := fun b => b ++ "-sha"
  pdfExtract := fun _ => .ok "extracted text"
  embed := fun cs => .ok (cs.map (fun _ => [1]))

/-- A concrete store holding the already-ingested generation of a.pdf. -/
def witnessDb : Db where
  documents := [⟨0, "a.pdf", 5, "RAWBYTES-sha"⟩]
  embeddings := [⟨0, 0, [1], "extracted text"⟩]
  jobs := []
  nextDocId := 1
  nextJobId := 0

/-- C2 witness: re-ingesting the unchanged a.pdf is skipped with an untouched
store. -/
theorem C2_witness :
    witnessEnv.fsys "a.pdf" = some (5, "RAWBYTES") ∧
    getDocumentByFilename witnessDb "a.pdf" = some ⟨0, "a.pdf", 5, "RAWBYTES-sha"⟩ ∧
    ("RAWBYTES-sha" : String) = witnessEnv.hashFn "RAWBYTES" ∧
    ((5 : ℚ)) = 5 ∧
    ingestDocument witnessEnv witnessDb "a.pdf" = (.ok ⟨"a.pdf", .skipped⟩, witnessDb) :=
  ⟨by decide, by decide, by decide, rfl,
   C2_ingest_idempotent witnessEnv witnessDb "a.pdf" 5 "RAWBYTES"
     ⟨0, "a.pdf", 5, "RAWBYTES-sha"⟩ (by decide) (by decide) (by decide) rfl⟩

/-! ### Replacement atomicity lemmas -/

theorem find?_map_preserve {α : Type} (f : α → α) (p : α → Bool)
    (h : ∀ x, p (f x) = p x) :
    ∀ l : List α, (l.map f).find? p = (l.find? p).map f := by
  intro l
  induction l with
  | nil => rfl
  | cons x xs ih =>
      by_cases hp : p x = true
      · rw [List.map_cons, List.find?_cons_of_pos (List.map f xs) ((h x).trans hp),
            List.find?_cons_of_pos xs hp]
        rfl
      · have hp2 : ¬ p (f x) = true := by rw [h x]; exact hp
        rw [List.map_cons, List.find?_cons_of_neg (List.map f xs) hp2,
            List.find?_cons_of_neg xs hp, ih]

theorem foldl_store_embeddings (docId : Nat) (chunks : List String) :
    ∀ (ps : List (Nat × List ℚ)) (db : Db),
      (ps.foldl (fun s p => storeEmbeddingChunk s docId p.1 p.2 (chunks.getD p.1 "")) db)
        = { db with
            embeddings := db.embeddings ++
              ps.map (fun p => ⟨docId, p.1, p.2, chunks.getD p.1 ""⟩) } := by
  intro ps
  induction ps with
  | nil => intro db; simp
  | cons q qs ih =>
      intro db
      rw [List.foldl_cons, ih]
      simp [storeEmbeddingChunk]

theorem filter_ne_then_eq (l : List Chunk) (i : Nat) :
    (l.filter (fun c => decide (c.document_id ≠ i))).filter
        (fun c => decide (c.document_id = i)) = [] := by
  rw [List.filter_filter]
  apply List.filter_eq_nil_iff.mpr
  intro c hc
  simp

theorem ingestChanged_state (env : IngestEnv) (db : Db) (filename : String)
    (mtime : ℚ) (buffer hash text : String) (embs : List (List ℚ))
    (hpdf : env.pdfExtract buffer = .ok text)
    (hemb : env.embed ((splitText CONFIG_retrieval_chunkSize CONFIG_retrieval_chunkOverlap text).getD [])
      = .ok embs) :
    ingestChanged env db filename mtime buffer hash
      = (.ok ⟨filename,
          .indexed ((splitText CONFIG_retrieval_chunkSize CONFIG_retrieval_chunkOverlap text).getD []).length⟩,
         completeIndexingJob
           ((embs.enum.foldl
              (fun s p => storeEmbeddingChunk s
                (replaceDocumentMetadata (startIndexingJob db filename mtime hash).2 filename mtime hash).1
                p.1 p.2
                (((splitText CONFIG_retrieval_chunkSize CONFIG_retrieval_chunkOverlap text).getD []).getD p.1 ""))
              (replaceDocumentMetadata (startIndexingJob db filename mtime hash).2 filename mtime hash).2))
           (startIndexingJob db filename mtime hash).1) := by
  unfold ingestChanged
  simp only [hpdf, hemb]

theorem ingestChanged_error (env : IngestEnv) (db : Db) (filename : String)
    (mtime : ℚ) (buffer hash : String) :
    ∀ e, (ingestChanged env db filename mtime buffer hash).1 = .error e →
      (ingestChanged env db filename mtime buffer hash).2.documents = db.documents ∧
      (ingestChanged env db filename mtime buffer hash).2.embeddings = db.embeddings := by
  intro e
  cases hpdf : env.pdfExtract buffer with
  | error e2 =>
      have hstate : ingestChanged env db filename mtime buffer hash
          = (.error e2, failIndexingJob (startIndexingJob db filename mtime hash).2
              (startIndexingJob db filename mtime hash).1 e2) := by
        unfold ingestChanged; simp only [hpdf]
      rw [hstate]
      intro _
      constructor <;> simp [failIndexingJob, startIndexingJob]
  | ok text =>
      cases hemb : env.embed
          ((splitText CONFIG_retrieval_chunkSize CONFIG_retrieval_chunkOverlap text).getD []) with
      | error e2 =>
          have hstate : ingestChanged env db filename mtime buffer hash
              = (.error e2, failIndexingJob (startIndexingJob db filename mtime hash).2
                  (startIndexingJob db filename mtime hash).1 e2) := by
            unfold ingestChanged; simp only [hpdf, hemb]
          rw [hstate]
          intro _
          constructor <;> simp [failIndexingJob, startIndexingJob]
      | ok embs =>
          rw [ingestChanged_state env db filename mtime buffer hash text embs hpdf hemb]
          intro hcontr
          simp at hcontr

theorem chunksFor_completeIndexingJob (db : Db) (j i : Nat) :
    chunksFor (completeIndexingJob db j) i = chunksFor db i := rfl

theorem getDocumentByFilename_completeIndexingJob (db : Db) (j : Nat) (f : String) :
    getDocumentByFilename (completeIndexingJob db j) f = getDocumentByFilename db f := rfl

theorem ingestChanged_success (env : IngestEnv) (db : Db) (filename : String)
    (mtime : ℚ) (buffer hash text : String) (embs : List (List ℚ))
    (hwf : WfDb db)
    (hpdf : env.pdfExtract buffer = .ok text)
    (hemb : env.embed
      ((splitText CONFIG_retrieval_chunkSize CONFIG_retrieval_chunkOverlap text).getD [])
      = .ok embs) :
    ∃ d, getDocumentByFilename (ingestChanged env db filename mtime buffer hash).2 filename
          = some d ∧
      chunksFor (ingestChanged env db filename mtime buffer hash).2 d.id
        = embs.enum.map (fun p =>
            (⟨d.id, p.1, p.2,
              ((splitText CONFIG_retrieval_chunkSize CONFIG_retrieval_chunkOverlap text).getD []).getD
                p.1 ""⟩ : Chunk)) := by
  rw [ingestChanged_state env db filename mtime buffer hash text embs hpdf hemb]
  simp only [foldl_store_embeddings, chunksFor_completeIndexingJob,
    getDocumentByFilename_completeIndexingJob]
  cases hfind : db.documents.find? (fun d => decide (d.filename = filename)) with
  | some ex =>
      have hdocs : (startIndexingJob db filename mtime hash).2.documents = db.documents := rfl
      have hr : replaceDocumentMetadata (startIndexingJob db filename mtime hash).2
            filename mtime hash
          = (ex.id,
             { (startIndexingJob db filename mtime hash).2 with
               documents := db.documents.map
                 (fun d => if d.id = ex.id then { d with mtime := mtime, hash := hash } else d),
               embeddings := db.embeddings.filter (fun c => decide (c.document_id ≠ ex.id)) }) := by
        unfold replaceDocumentMetadata
        rw [hdocs, hfind]
        rfl
      rw [hr]
      simp only [getDocumentByFilename, chunksFor]
      refine ⟨{ ex with mtime := mtime, hash := hash }, ?_, ?_⟩
      · rw [find?_map_preserve
            (fun d : Document => if d.id = ex.id then { d with mtime := mtime, hash := hash } else d)
            (fun d : Document => decide (d.filename = filename))
            (fun x : Document => by by_cases hx : x.id = ex.id <;> simp [hx])
            db.documents,
          hfind]
        simp
      · rw [List.filter_append, filter_ne_then_eq, List.nil_append]
        have hkeep :
            (embs.enum.map (fun p =>
              (⟨ex.id, p.1, p.2,
                ((splitText CONFIG_retrieval_chunkSize CONFIG_retrieval_chunkOverlap text).getD []).getD
                  p.1 ""⟩ : Chunk))).filter
                (fun c => decide (c.document_id = ex.id))
            = embs.enum.map (fun p =>
              (⟨ex.id, p.1, p.2,
                ((splitText CONFIG_retrieval_chunkSize CONFIG_retrieval_chunkOverlap text).getD []).getD
                  p.1 ""⟩ : Chunk)) := by
          apply List.filter_eq_self.mpr
          intro c hc
          rcases List.mem_map.mp hc with ⟨p, _, rfl⟩
          simp
        rw [hkeep]
  | none =>
      have hdocs : (startIndexingJob db filename mtime hash).2.documents = db.documents := rfl
      have hr : replaceDocumentMetadata (startIndexingJob db filename mtime hash).2
            filename mtime hash
          = (db.nextDocId,
             { (startIndexingJob db filename mtime hash).2 with
               documents := db.documents ++ [⟨db.nextDocId, filename, mtime, hash⟩],
               nextDocId := db.nextDocId + 1 }) := by
        unfold replaceDocumentMetadata
        rw [hdocs, hfind]
        rfl
      rw [hr]
      simp only [getDocumentByFilename, chunksFor]
      refine ⟨⟨db.nextDocId, filename, mtime, hash⟩, ?_, ?_⟩
      · rw [List.find?_append, hfind]
        simp
      · rw [List.filter_append]
        dsimp only [startIndexingJob]
        have h1 : db.embeddings.filter
            (fun c => decide (c.document_id = db.nextDocId))
            = [] := by
          apply List.filter_eq_nil_iff.mpr
          intro c hc
          have hlt := hwf.2 c hc
          simp only [decide_eq_true_eq]
          omega
        rw [h1, List.nil_append]
        have hkeep :
            (embs.enum.map (fun p =>
              (⟨db.nextDocId, p.1, p.2,
                ((splitText CONFIG_retrieval_chunkSize CONFIG_retrieval_chunkOverlap text).getD []).getD
                  p.1 ""⟩ : Chunk))).filter
                (fun c => decide (c.document_id = db.nextDocId))
            = embs.enum.map (fun p =>
              (⟨db.nextDocId, p.1, p.2,
                ((splitText CONFIG_retrieval_chunkSize CONFIG_retrieval_chunkOverlap text).getD []).getD
                  p.1 ""⟩ : Chunk)) := by
          apply List.filter_eq_self.mpr
          intro c hc
          rcases List.mem_map.mp hc with ⟨p, _, rfl⟩
          simp
        rw [hkeep]

/-! ### Claim C3: full-set replacement atomicity -/

/-- C3: any failing ingestion attempt (missing file, extraction error,
embedding failure) leaves the stored documents and chunk embeddings exactly
as they were; any attempt that succeeds with `indexed` leaves, for the
ingested filename, exactly the freshly embedded generation, with ordinal
chunk indices contiguous from 0 — never a mix of old and new chunks. -/
theorem C3_replacement_atomicity (env : IngestEnv) (db : Db) (filename : String)
    (hwf : WfDb db) :
    (∀ e, (ingestDocument env db filename).1 = .error e →
       (ingestDocument env db filename).2.documents = db.documents ∧
       (ingestDocument env db filename).2.embeddings = db.embeddings) ∧
    (∀ (mtime : ℚ) (buffer text : String) (embs : List (List ℚ)) (n : Nat),
       env.fsys filename = some (mtime, buffer) →
       env.pdfExtract buffer = .ok text →
       env.embed ((splitText CONFIG_retrieval_chunkSize CONFIG_retrieval_chunkOverlap text).getD [])
         = .ok embs →
       (ingestDocument env db filename).1 = .ok ⟨filename, .indexed n⟩ →
       ∃ d, getDocumentByFilename (ingestDocument env db filename).2 filename = some d ∧
         chunksFor (ingestDocument env db filename).2 d.id
           = embs.enum.map (fun p =>
               (⟨d.id, p.1, p.2,
                 ((splitText CONFIG_retrieval_chunkSize CONFIG_retrieval_chunkOverlap text).getD []).getD
                   p.1 ""⟩ : Chunk)) ∧
         (chunksFor (ingestDocument env db filename).2 d.id).map (fun c => c.chunk_index)
           = List.range embs.length) := by
  have hrange : ∀ (i : Nat) (txts : List String) (embs : List (List ℚ)),
      (embs.enum.map (fun p => (⟨i, p.1, p.2, txts.getD p.1 ""⟩ : Chunk))).map
          (fun c => c.chunk_index)
        = List.range embs.length := by
    intro i txts embs
    calc (embs.enum.map (fun p => (⟨i, p.1, p.2, txts.getD p.1 ""⟩ : Chunk))).map
            (fun c => c.chunk_index)
        = embs.enum.map Prod.fst := by rw [List.map_map]; rfl
      _ = List.range embs.length := List.enum_map_fst embs
  cases hfs : env.fsys filename with
  | none =>
      have hstate : ingestDocument env db filename
          = (.error ("File " ++ filename ++ " no longer exists"), db) := by
        unfold ingestDocument; rw [hfs]
      constructor
      · intro e _
        rw [hstate]
        exact ⟨rfl, rfl⟩
      · intro mt buf text embs n hfs2 _ _ _
        cases hfs2
  | some stat =>
      obtain ⟨mt, buf⟩ := stat
      cases hdoc : getDocumentByFilename db filename with
      | some ex =>
          by_cases hskip : ex.hash = env.hashFn buf ∧ ex.mtime = mt
          · have hstate : ingestDocument env db filename = (.ok ⟨filename, .skipped⟩, db) := by
              unfold ingestDocument
              rw [hfs]
              simp only []
              rw [hdoc]
              simp [hskip.1, hskip.2]
            constructor
            · intro e he
              rw [hstate] at he
              simp at he
            · intro mt2 buf2 text embs n hfs2 hpdf hemb hok
              rw [hstate] at hok
              simp at hok
          · have hstate : ingestDocument env db filename
                = ingestChanged env db filename mt buf (env.hashFn buf) := by
              unfold ingestDocument
              rw [hfs]
              simp only []
              rw [hdoc]
              simp [hskip]
            rw [hstate]
            constructor
            · exact ingestChanged_error env db filename mt buf (env.hashFn buf)
            · intro mt2 buf2 text embs n hfs2 hpdf hemb hok
              injection hfs2 with hp
              injection hp with hq1 hq2
              subst hq1
              subst hq2
              obtain ⟨d, h1, h2⟩ := ingestChanged_success env db filename mt buf
                (env.hashFn buf) text embs hwf hpdf hemb
              exact ⟨d, h1, h2, by rw [h2]; exact hrange d.id _ embs⟩
      | none =>
          have hstate : ingestDocument env db filename
              = ingestChanged env db filename mt buf (env.hashFn buf) := by
            unfold ingestDocument
            rw [hfs]
            simp only []
            rw [hdoc]
          rw [hstate]
          constructor
          · exact ingestChanged_error env db filename mt buf (env.hashFn buf)
          · intro mt2 buf2 text embs n hfs2 hpdf hemb hok
            injection hfs2 with hp
            injection hp with hq1 hq2
            subst hq1
            subst hq2
            obtain ⟨d, h1, h2⟩ := ingestChanged_success env db filename mt buf
              (env.hashFn buf) text embs hwf hpdf hemb
            exact ⟨d, h1, h2, by rw [h2]; exact hrange d.id _ embs⟩

/-- C3 witness: the concrete store satisfies the well-formedness hypothesis
and inherits the atomicity guarantees. -/
theorem C3_witness :
    WfDb witnessDb ∧
    ((∀ e, (ingestDocument witnessEnv witnessDb "a.pdf").1 = .error e →
       (ingestDocument witnessEnv witnessDb "a.pdf").2.documents = witnessDb.documents ∧
       (ingestDocument witnessEnv witnessDb "a.pdf").2.embeddings = witnessDb.embeddings) ∧
     (∀ (mtime : ℚ) (buffer text : String) (embs : List (List ℚ)) (n : Nat),
       witnessEnv.fsys "a.pdf" = some (mtime, buffer) →
       witnessEnv.pdfExtract buffer = .ok text →
       witnessEnv.embed
         ((splitText CONFIG_retrieval_chunkSize CONFIG_retrieval_chunkOverlap text).getD [])
         = .ok embs →
       (ingestDocument witnessEnv witnessDb "a.pdf").1 = .ok ⟨"a.pdf", .indexed n⟩ →
       ∃ d, getDocumentByFilename (ingestDocument witnessEnv witnessDb "a.pdf").2 "a.pdf"
              = some d ∧
         chunksFor (ingestDocument witnessEnv witnessDb "a.pdf").2 d.id
           = embs.enum.map (fun p =>
               (⟨d.id, p.1, p.2,
                 ((splitText CONFIG_retrieval_chunkSize CONFIG_retrieval_chunkOverlap text).getD []).getD
                   p.1 ""⟩ : Chunk)) ∧
         (chunksFor (ingestDocument witnessEnv witnessDb "a.pdf").2 d.id).map
             (fun c => c.chunk_index)
           = List.range embs.length)) :=
  ⟨by decide, C3_replacement_atomicity witnessEnv witnessDb "a.pdf" (by decide)⟩

/-! ### Bulk ingestion lemmas -/

theorem ingestChanged_ok_filename (env : IngestEnv) (db : Db) (f : String)
    (mtime : ℚ) (buffer hash : String) :
    ∀ r, (ingestChanged env db f mtime buffer hash).1 = .ok r → r.filename = f := by
  intro r
  cases hpdf : env.pdfExtract buffer with
  | error e2 =>
      have hstate : ingestChanged env db f mtime buffer hash
          = (.error e2, failIndexingJob (startIndexingJob db f mtime hash).2
              (startIndexingJob db f mtime hash).1 e2) := by
        unfold ingestChanged; simp only [hpdf]
      rw [hstate]
      intro h
      simp at h
  | ok text =>
      cases hemb : env.embed
          ((splitText CONFIG_retrieval_chunkSize CONFIG_retrieval_chunkOverlap text).getD []) with
      | error e2 =>
          have hstate : ingestChanged env db f mtime buffer hash
              = (.error e2, failIndexingJob (startIndexingJob db f mtime hash).2
                  (startIndexingJob db f mtime hash).1 e2) := by
            unfold ingestChanged; simp only [hpdf, hemb]
          rw [hstate]
          intro h
          simp at h
      | ok embs =>
          rw [ingestChanged_state env db f mtime buffer hash text embs hpdf hemb]
          intro h
          simp only [Except.ok.injEq] at h
          rw [← h]

theorem ingestDocument_ok_filename (env : IngestEnv) (db : Db) (f : String) :
    ∀ r, (ingestDocument env db f).1 = .ok r → r.filename = f := by
  intro r
  cases hfs : env.fsys f with
  | none =>
      have hstate : ingestDocument env db f
          = (.error ("File " ++ f ++ " no longer exists"), db) := by
        unfold ingestDocument; rw [hfs]
      rw [hstate]
      intro h
      simp at h
  | some stat =>
      obtain ⟨mt, buf⟩ := stat
      cases hdoc : getDocumentByFilename db f with
      | some ex =>
          by_cases hskip : ex.hash = env.hashFn buf ∧ ex.mtime = mt
          · have hstate : ingestDocument env db f = (.ok ⟨f, .skipped⟩, db) := by
              unfold ingestDocument
              rw [hfs]
              simp only []
              rw [hdoc]
              simp [hskip.1, hskip.2]
            rw [hstate]
            intro h
            simp only [Except.ok.injEq] at h
            rw [← h]
          · have hstate : ingestDocument env db f
                = ingestChanged env db f mt buf (env.hashFn buf) := by
              unfold ingestDocument
              rw [hfs]
              simp only []
              rw [hdoc]
              simp [hskip]
            rw [hstate]
            exact ingestChanged_ok_filename env db f mt buf (env.hashFn buf) r
      | none =>
          have hstate : ingestDocument env db f
              = ingestChanged env db f mt buf (env.hashFn buf) := by
            unfold ingestDocument
            rw [hfs]
            simp only []
            rw [hdoc]
          rw [hstate]
          exact ingestChanged_ok_filename env db f mt buf (env.hashFn buf) r

theorem ingestStep_parts (env : IngestEnv) (acc : List IngestResult × Db) (f : String) :
    ∃ r, ingestStep env acc f = (acc.1 ++ [r], (ingestDocument env acc.2 f).2) ∧
      r.filename = f := by
  cases hr : (ingestDocument env acc.2 f).1 with
  | ok result =>
      refine ⟨result, ?_, ingestDocument_ok_filename env acc.2 f result hr⟩
      unfold ingestStep
      simp only [hr]
  | error e =>
      refine ⟨⟨f, .errored e⟩, ?_, rfl⟩
      unfold ingestStep
      simp only [hr]

theorem ingestRun_spec (env : IngestEnv) :
    ∀ (files : List String) (acc : List IngestResult) (db : Db),
      (files.foldl (ingestStep env) (acc, db)).2
        = files.foldl (fun s f => (ingestDocument env s f).2) db ∧
      (files.foldl (ingestStep env) (acc, db)).1.map (fun r => r.filename)
        = acc.map (fun r => r.filename) ++ files := by
  intro files
  induction files with
  | nil => intro acc db; exact ⟨rfl, by simp⟩
  | cons f fs ih =>
      intro acc db
      rw [List.foldl_cons, List.foldl_cons]
      obtain ⟨r, hpair, hname⟩ := ingestStep_parts env (acc, db) f
      rw [hpair]
      obtain ⟨ih1, ih2⟩ := ih (acc ++ [r]) ((ingestDocument env db f).2)
      refine ⟨ih1, ?_⟩
      rw [ih2]
      simp [hname]

/-! ### Claim C7: bulk ingestion semantics -/

/-- C7: `ingestDocuments` attempts every eligible (.pdf) file in order; the
final store state is the sequential composition of the per-file ingestions —
so files that succeeded stay committed even when later or earlier files fail;
the run records one per-file result per eligible file (in directory order);
when no per-file result errored the aggregate succeeds with those results,
and when any errored the aggregate fails with an error naming exactly the
failed files. -/
theorem C7_bulk_ingestion (env : IngestEnv) (db : Db) (allFiles : List String) :
    (ingestDocuments env db allFiles).2
      = (eligiblePdfFiles allFiles).foldl (fun s f => (ingestDocument env s f).2) db ∧
    (ingestRun env db (eligiblePdfFiles allFiles)).1.map (fun r => r.filename)
      = eligiblePdfFiles allFiles ∧
    (((ingestRun env db (eligiblePdfFiles allFiles)).1.filter (fun r => r.isErr)).isEmpty
        = true →
       (ingestDocuments env db allFiles).1
         = .ok (ingestRun env db (eligiblePdfFiles allFiles)).1) ∧
    (((ingestRun env db (eligiblePdfFiles allFiles)).1.filter (fun r => r.isErr)).isEmpty
        = false →
       (ingestDocuments env db allFiles).1
         = .error ("Failed to ingest: " ++ String.intercalate ", "
             (((ingestRun env db (eligiblePdfFiles allFiles)).1.filter
                 (fun r => r.isErr)).map (fun r => r.filename)))) := by
  obtain ⟨hstate, hnames⟩ := ingestRun_spec env (eligiblePdfFiles allFiles) [] db
  by_cases hempty : (eligiblePdfFiles allFiles).isEmpty
  · have hnil : eligiblePdfFiles allFiles = [] := List.isEmpty_iff.mp hempty
    have hout : ingestDocuments env db allFiles = (.ok [], db) := by
      unfold ingestDocuments
      simp [hempty]
    rw [hout, hnil]
    refine ⟨rfl, rfl, fun _ => rfl, ?_⟩
    intro hbad
    simp [ingestRun] at hbad
  · have hout : ingestDocuments env db allFiles
        = (if ((ingestRun env db (eligiblePdfFiles allFiles)).1.filter
              (fun r => r.isErr)).isEmpty
           then (.ok (ingestRun env db (eligiblePdfFiles allFiles)).1,
                 (ingestRun env db (eligiblePdfFiles allFiles)).2)
           else (.error ("Failed to ingest: " ++ String.intercalate ", "
                  (((ingestRun env db (eligiblePdfFiles allFiles)).1.filter
                      (fun r => r.isErr)).map (fun r => r.filename))),
                 (ingestRun env db (eligiblePdfFiles allFiles)).2)) := by
      unfold ingestDocuments
      simp [hempty]
    refine ⟨?_, by simpa using hnames, ?_, ?_⟩
    · rw [hout]
      by_cases hfail : ((ingestRun env db (eligiblePdfFiles allFiles)).1.filter
          (fun r => r.isErr)).isEmpty
      · rw [if_pos hfail]
        exact hstate
      · rw [if_neg hfail]
        exact hstate
    · intro hgood
      rw [hout, if_pos hgood]
    · intro hbad
      rw [hout, if_neg (by rw [hbad]; exact Bool.false_ne_true)]

/-- C7 witness: concrete directory listing with one eligible PDF and one
non-PDF file. -/
theorem C7_witness :
    (ingestDocuments witnessEnv witnessDb ["a.pdf", "readme.txt"]).2
      = (eligiblePdfFiles ["a.pdf", "readme.txt"]).foldl
          (fun s f => (ingestDocument witnessEnv s f).2) witnessDb ∧
    (ingestRun witnessEnv witnessDb (eligiblePdfFiles ["a.pdf", "readme.txt"])).1.map
        (fun r => r.filename)
      = eligiblePdfFiles ["a.pdf", "readme.txt"] ∧
    (((ingestRun witnessEnv witnessDb (eligiblePdfFiles ["a.pdf", "readme.txt"])).1.filter
          (fun r => r.isErr)).isEmpty = true →
       (ingestDocuments witnessEnv witnessDb ["a.pdf", "readme.txt"]).1
         = .ok (ingestRun witnessEnv witnessDb (eligiblePdfFiles ["a.pdf", "readme.txt"])).1) ∧
    (((ingestRun witnessEnv witnessDb (eligiblePdfFiles ["a.pdf", "readme.txt"])).1.filter
          (fun r => r.isErr)).isEmpty = false →
       (ingestDocuments witnessEnv witnessDb ["a.pdf", "readme.txt"]).1
         = .error ("Failed to ingest: " ++ String.intercalate ", "
             (((ingestRun witnessEnv witnessDb (eligiblePdfFiles ["a.pdf", "readme.txt"])).1.filter
                 (fun r => r.isErr)).map (fun r => r.filename)))) :=
  C7_bulk_ingestion witnessEnv witnessDb ["a.pdf", "readme.txt"]

/-! ### Claim C8: greeting short-circuit -/

/-- C8: a message recognised as a greeting makes the chat handler record the
user message, record the fixed canned greeting for the detected language as
the assistant reply, log an interaction with an empty retrieval-sources list,
stream that greeting and finish with reason `greeting` — and it never issues
a completion request, regardless of retrieval outcome or stream oracles. -/
theorem C8_greeting_short_circuit (cap : Nat) (systemPrompt : String)
    (history : List (String × String))
    (retrieval : Except String (List String × List String))
    (attempts : List StreamAttempt) (message : String)
    (hg : isGreeting message = true) :
    chatHandler cap systemPrompt history retrieval attempts message
      = [.userMsg message, .assistantMsg (greetingReply (detectLanguage message)),
         .interaction [], .pushToken (greetingReply (detectLanguage message)),
         .streamDone "greeting"] ∧
    ∀ mt, Effect.completionRequest mt ∉
      chatHandler cap systemPrompt history retrieval attempts message := by
  have h1 : chatHandler cap systemPrompt history retrieval attempts message
      = [.userMsg message, .assistantMsg (greetingReply (detectLanguage message)),
         .interaction [], .pushToken (greetingReply (detectLanguage message)),
         .streamDone "greeting"] := by
    unfold chatHandler
    simp [hg]
  refine ⟨h1, ?_⟩
  intro mt
  rw [h1]
  simp

/-- C8 witness: the query "hello" takes the greeting short circuit. -/
theorem C8_witness :
    isGreeting "hello" = true ∧
    (chatHandler 4096 "sys" [] (.ok (["ctx"], ["src"])) [⟨["answer"], some "stop", none⟩] "hello"
      = [.userMsg "hello", .assistantMsg (greetingReply (detectLanguage "hello")),
         .interaction [], .pushToken (greetingReply (detectLanguage "hello")),
         .streamDone "greeting"] ∧
     ∀ mt, Effect.completionRequest mt ∉
       chatHandler 4096 "sys" [] (.ok (["ctx"], ["src"]))
         [⟨["answer"], some "stop", none⟩] "hello") :=
  ⟨by decide,
   C8_greeting_short_circuit 4096 "sys" [] (.ok (["ctx"], ["src"]))
     [⟨["answer"], some "stop", none⟩] "hello" (by decide)⟩

/-! ### Budget exhaustion lemmas -/

theorem trimContextGo_all (base : Nat) (hbase : CONTEXT_TOKEN_BUDGET < base) :
    ∀ (fuel : Nat) (ctx : List (String × Nat)), ctx.length ≤ fuel →
      trimContextGo base fuel ctx = [] := by
  intro fuel
  induction fuel with
  | zero =>
      intro ctx hlen
      have hctx : ctx = [] := List.length_eq_zero.mp (Nat.le_zero.mp hlen)
      rw [hctx]
      rfl
  | succ n ih =>
      intro ctx hlen
      cases ctx with
      | nil => simp [trimContextGo]
      | cons x xs =>
          have hcond : CONTEXT_TOKEN_BUDGET < base + (((x :: xs).map Prod.snd).sum) ∧
              (x :: xs) ≠ [] := by
            constructor
            · omega
            · simp
          rw [trimContextGo, if_pos hcond]
          apply ih
          rw [List.length_dropLast]
          simp at hlen ⊢
          omega

theorem trimContext_all (base : Nat) (hbase : CONTEXT_TOKEN_BUDGET < base)
    (ctx : List (String × Nat)) : trimContext base ctx = [] :=
  trimContextGo_all base hbase ctx.length ctx le_rfl

/-! ### Claim C4: budget exhaustion is a hard failure -/

/-- C4: whenever the estimated cost of the system messages plus the trimmed
conversation history alone (all retrieved context dropped) already reaches
the outer prompt budget, or leaves less than the minimum generation floor,
the chat handler takes the hard-failure path: it streams and records only the
fixed fallback reply and issues no completion request — no truncated prompt
is ever sent to the completion endpoint. -/
theorem C4_budget_exhaustion (cap : Nat) (systemPrompt : String)
    (history : List (String × String)) (contextChunks sources : List String)
    (attempts : List StreamAttempt) (message : String)
    (hng : isGreeting message = false)
    (hbudget : PROMPT_TOKEN_BUDGET ≤
        systemTokensOf systemPrompt (detectLanguage message) + conversationTokensOf history ∨
      PROMPT_TOKEN_BUDGET -
          (systemTokensOf systemPrompt (detectLanguage message) + conversationTokensOf history)
        < CONFIG_minCompletionTokens) :
    chatHandler cap systemPrompt history (.ok (contextChunks, sources)) attempts message
      = [.userMsg message, .pushToken (buildFallbackReply (detectLanguage message)),
         .assistantMsg (buildFallbackReply (detectLanguage message)), .interaction [],
         .streamDone "fallback"] ∧
    ∀ mt, Effect.completionRequest mt ∉
      chatHandler cap systemPrompt history (.ok (contextChunks, sources)) attempts message := by
  have hbig : CONTEXT_TOKEN_BUDGET <
      systemTokensOf systemPrompt (detectLanguage message) + conversationTokensOf history := by
    unfold CONTEXT_TOKEN_BUDGET PROMPT_TOKEN_BUDGET CONFIG_minCompletionTokens at *
    omega
  have htrim : trimContext
      (systemTokensOf systemPrompt (detectLanguage message) + conversationTokensOf history)
      (contextChunks.map (fun c => (c, estimateTokens c))) = [] :=
    trimContext_all _ hbig _
  have h1 : chatHandler cap systemPrompt history (.ok (contextChunks, sources)) attempts message
      = [.userMsg message, .pushToken (buildFallbackReply (detectLanguage message)),
         .assistantMsg (buildFallbackReply (detectLanguage message)), .interaction [],
         .streamDone "fallback"] := by
    unfold chatHandler
    by_cases hge : PROMPT_TOKEN_BUDGET ≤
        systemTokensOf systemPrompt (detectLanguage message) + conversationTokensOf history
    · simp [hng, htrim, hge]
    · have h2 : PROMPT_TOKEN_BUDGET -
          (systemTokensOf systemPrompt (detectLanguage message) + conversationTokensOf history)
          < CONFIG_minCompletionTokens := by
        rcases hbudget with hb | hb
        · exact absurd hb hge
        · exact hb
      simp [hng, htrim, hge, h2]
  refine ⟨h1, ?_⟩
  intro mt
  rw [h1]
  simp

/-- The oversized system prompt used by the C4 witness: 120000 characters
estimate to 30000 tokens, which alone exhausts the 30000-token outer prompt
budget. -/
def hugeSystemPrompt : String := String.mk (List.replicate 120000 'a')

theorem estimateTokens_mk (l : List Char) :
    estimateTokens (String.mk l) = (l.length + 3) / 4 := rfl

theorem estimateTokens_hugeSystemPrompt : estimateTokens hugeSystemPrompt = 30000 := by
  unfold hugeSystemPrompt
  rw [estimateTokens_mk, List.length_replicate]

theorem systemTokensOf_def (s l : String) :
    systemTokensOf s l
      = estimateTokens s + estimateTokens safetyInstruction +
          estimateTokens (languageInstruction l) + 50 := rfl

set_option maxRecDepth 40000 in
theorem estimateTokens_safetyInstruction : estimateTokens safetyInstruction = 50 := rfl

set_option maxRecDepth 40000 in
theorem estimateTokens_languageInstruction_en :
    estimateTokens (languageInstruction "en") = 26 := rfl

theorem conversationTokensOf_nil : conversationTokensOf [] = 0 := rfl

theorem hugeSystemPrompt_budget :
    PROMPT_TOKEN_BUDGET ≤
        systemTokensOf hugeSystemPrompt (detectLanguage "what is the warranty") +
          conversationTokensOf [] ∨
      PROMPT_TOKEN_BUDGET -
          (systemTokensOf hugeSystemPrompt (detectLanguage "what is the warranty") +
            conversationTokensOf [])
        < CONFIG_minCompletionTokens := by
  left
  have hlang : detectLanguage "what is the warranty" = "en" := by decide
  rw [hlang, systemTokensOf_def, estimateTokens_hugeSystemPrompt,
      estimateTokens_safetyInstruction, estimateTokens_languageInstruction_en,
      conversationTokensOf_nil]
  decide

/-- C4 witness: with the oversized system prompt, even an empty history and a
single retrieved chunk lead to the hard-failure path with no completion
request. -/
theorem C4_witness :
    isGreeting "what is the warranty" = false ∧
    (PROMPT_TOKEN_BUDGET ≤
        systemTokensOf hugeSystemPrompt (detectLanguage "what is the warranty") +
          conversationTokensOf [] ∨
      PROMPT_TOKEN_BUDGET -
          (systemTokensOf hugeSystemPrompt (detectLanguage "what is the warranty") +
            conversationTokensOf [])
        < CONFIG_minCompletionTokens) ∧
    (chatHandler 4096 hugeSystemPrompt [] (.ok (["some context"], ["some source"]))
        [⟨["answer"], some "stop", none⟩] "what is the warranty"
      = [.userMsg "what is the warranty",
         .pushToken (buildFallbackReply (detectLanguage "what is the warranty")),
         .assistantMsg (buildFallbackReply (detectLanguage "what is the warranty")),
         .interaction [], .streamDone "fallback"] ∧
     ∀ mt, Effect.completionRequest mt ∉
       chatHandler 4096 hugeSystemPrompt [] (.ok (["some context"], ["some source"]))
         [⟨["answer"], some "stop", none⟩] "what is the warranty") :=
  ⟨by decide, hugeSystemPrompt_budget,
    C4_budget_exhaustion 4096 hugeSystemPrompt [] ["some context"] ["some source"]
      [⟨["answer"], some "stop", none⟩] "what is the warranty" (by decide)
      hugeSystemPrompt_budget⟩
